import Mathlib

/-!
Verification of the MySQL RSA-OAEP module (`sqlx-core/src/mysql/rsa.rs`).

The module is embedded shallowly:

* Bytes are `Nat`s below 256; byte buffers are `List Nat`.
* `BigUint` is `Nat`; its external primitives `modpow`, `from_bytes_be`,
  `to_bytes_be` and `bits` are given their mathematical meaning.
* The `Digest` trait object is an abstract pure function
  `hash : List Nat → List Nat` together with its static output size
  `h_size` (the reset-and-reuse discipline of the code means every
  `result_reset` call returns the hash of exactly the bytes absorbed
  since the previous reset, which is what a pure function models).
* The random source is the list of bytes it would produce
  (`rng.fill(seed)` overwrites the whole `h_size`-byte region with the
  next `h_size` bytes of the source).
* Rust operations that can panic (slice indexing with computed bounds,
  `usize` subtraction overflow) are modelled with checked helpers; a
  function whose Rust original can panic returns `Option`, with `none`
  standing for the panic.
-/

set_option maxRecDepth 8000

namespace MysqlRsa

/-- `BigUint::from_bytes_be`: big-endian bytes to an unsigned integer. -/
def fromBytesBE (l : List Nat) : Nat :=
  l.foldl (fun acc b => acc * 256 + b) 0

/-- Fuel-driven core of `to_bytes_be`: big-endian digits of `n`, empty for 0.
The fuel only has to dominate the number of base-256 digits. -/
def natToBytesBEAux : Nat → Nat → List Nat
  | 0, _ => []
  | fuel + 1, n => if n = 0 then [] else natToBytesBEAux fuel (n / 256) ++ [n % 256]

/-- `BigUint::to_bytes_be`: minimal big-endian byte serialization (no leading
zero bytes; `0` serializes as `[0]`). -/
def toBytesBE (n : Nat) : List Nat :=
  if n = 0 then [0] else natToBytesBEAux n n

/-- Fuel-driven bit counting: number of binary digits of `n`, 0 for 0. -/
def bitLenAux : Nat → Nat → Nat
  | 0, _ => 0
  | fuel + 1, n => if n = 0 then 0 else bitLenAux fuel (n / 2) + 1

/-- `BigUint::bits`: bit length of the integer (`0` for zero). -/
def bits (n : Nat) : Nat := bitLenAux n n

/-- An RSA public key, as in the source: modulus `n` and public exponent `e`. -/
structure PublicKey where
  n : Nat
  e : Nat
  deriving Repr, DecidableEq

/-- `internals_encrypt`: `m.modpow(&key.e, &key.n)`. -/
def internals_encrypt (key : PublicKey) (m : Nat) : Nat :=
  m ^ key.e % key.n

/-- `internals_copy_with_left_pad`: overwrite the first
`dest.len() - src.len()` bytes of `dest` with zeros and copy `src` into the
rest.  (In Rust `dest` keeps its length; the subtraction panics when `src` is
longer, a case ruled out by the callers and by the hypotheses of the theorems
below.) -/
def internals_copy_with_left_pad (dest src : List Nat) : List Nat :=
  List.replicate (dest.length - src.length) 0 ++ src

/-- `internals_inc_counter`: increment a 4-byte big-endian counter in place,
cascading the carry exactly as the chain of `if` statements in the source
does. -/
def internals_inc_counter (counter : List Nat) : List Nat :=
  if counter.getD 3 0 = 255 then
    let c3 := counter.set 3 0
    if c3.getD 2 0 = 255 then
      let c2 := c3.set 2 0
      if c2.getD 1 0 = 255 then
        let c1 := c2.set 1 0
        if c1.getD 0 0 = 255 then
          (((c1.set 0 0).set 1 0).set 2 0).set 3 0
        else
          c1.set 0 (c1.getD 0 0 + 1)
      else
        c2.set 1 (c2.getD 1 0 + 1)
    else
      c3.set 2 (c3.getD 2 0 + 1)
  else
    counter.set 3 (counter.getD 3 0 + 1)

/-- One slice-copy step, `dest[off..off+src.len()].copy_from_slice(src)`:
valid (and length preserving) exactly when `off + src.length ≤ dest.length`,
which holds at every use below. -/
def overwrite (dest : List Nat) (off : Nat) (src : List Nat) : List Nat :=
  dest.take off ++ src ++ dest.drop (off + src.length)

/-- Core loop of `oeap_mgf1_xor`.  Each outer iteration hashes
`seed ++ counter`, XORs as many digest bytes as fit into the remaining part
`rem` of the output buffer, and increments the counter.  The fuel dominates
the number of iterations: when every digest output is nonempty, at least one
byte is consumed per iteration, so `rem.length` fuel suffices. -/
def mgf1Aux (hash : List Nat → List Nat) (seed : List Nat) :
    Nat → List Nat → List Nat → List Nat
  | 0, _, rem => rem
  | fuel + 1, counter, rem =>
    match rem with
    | [] => []
    | r :: rs =>
      let digest_output := hash (seed ++ counter)
      List.zipWith (fun a b => a ^^^ b) (r :: rs) digest_output ++
        mgf1Aux hash seed fuel (internals_inc_counter counter)
          ((r :: rs).drop digest_output.length)

/-- `oeap_mgf1_xor`: XOR the MGF1 mask generated from `seed` into `out`,
starting from the all-zero 4-byte counter. -/
def oeap_mgf1_xor (out : List Nat) (hash : List Nat → List Nat)
    (seed : List Nat) : List Nat :=
  mgf1Aux hash seed out.length [0, 0, 0, 0] out

/-- `oaep_encrypt`, with the digest and random source abstracted:
`hash`/`h_size` stand for the `Digest` parameter `D`, and `seedBytes` for the
`h_size` bytes the random source writes into the seed region. -/
def oaep_encrypt (hash : List Nat → List Nat) (h_size : Nat)
    (seedBytes : List Nat) (pub_key : PublicKey) (msg : List Nat) :
    Except String (List Nat) :=
  let k := (bits pub_key.n + 7) / 8
  if msg.length > k - 2 * h_size - 2 then
    Except.error "mysql: password too long"
  else
    let em := List.replicate k 0
    let first := em.take 1
    let payload := em.drop 1
    let db0 := payload.drop h_size
    let seed := seedBytes
    let db_len := k - h_size - 1
    let p_hash := hash []
    let db1 := overwrite db0 0 p_hash
    let db2 := db1.set (db_len - msg.length - 1) 1
    let db3 := overwrite db2 (db_len - msg.length) msg
    let db4 := oeap_mgf1_xor db3 hash seed
    let seed2 := oeap_mgf1_xor seed hash db4
    let em2 := first ++ seed2 ++ db4
    let m := fromBytesBE em2
    let c := toBytesBE (internals_encrypt pub_key m)
    Except.ok (internals_copy_with_left_pad em2 c)

/-! ### Public key parsing
`parse` works on the key text as a list of characters.  `base64::decode` is
the external primitive `decode64`.  The result type `Option (Except ...)`
separates the returned errors (`some (Except.error ...)`) from panics
(`none`): slice bounds computed by `usize` subtraction can overflow. -/

/-- Checked `usize` subtraction; `none` is the arithmetic-overflow panic. -/
def checkedSub (a b : Nat) : Option Nat :=
  if b ≤ a then some (a - b) else none

/-- Checked slice `&xs[a..b]`; `none` is the out-of-bounds panic. -/
def rustSlice (xs : List Nat) (a b : Nat) : Option (List Nat) :=
  if a ≤ b ∧ b ≤ xs.length then some ((xs.drop a).take (b - a)) else none

/-- Fuel-driven core of `str::trim_start_matches`, which removes every
repeated occurrence of the pattern from the front. -/
def trimStartMatchesAux (pat : List Char) : Nat → List Char → List Char
  | 0, s => s
  | fuel + 1, s =>
    if pat ≠ [] ∧ pat.isPrefixOf s then
      trimStartMatchesAux pat fuel (s.drop pat.length)
    else s

/-- Rust `s.trim_start_matches(pat)` (for a nonempty pattern the fuel
`s.length` dominates the number of removals). -/
def trimStartMatches (s pat : List Char) : List Char :=
  trimStartMatchesAux pat s.length s

/-- The first item of Rust `s.splitn(n, sep)`: with `n = 0` the iterator is
empty, with `n = 1` the whole string comes back unsplit, and only from
`n = 2` on does splitting at the separator actually happen. -/
def splitnFirst (n : Nat) (sep : Char) (s : List Char) : Option (List Char) :=
  if n = 0 then none
  else if n = 1 then some s
  else some (s.takeWhile (fun c => c ≠ sep))

/-- Rust `Debug` escaping of one character, covering the escapes relevant to
the inputs under study: quote, backslash, newline, carriage return, tab. -/
def escapeDebugChar (c : Char) : List Char :=
  if c = '"' then ['\\', '"']
  else if c = '\\' then ['\\', '\\']
  else if c = '\n' then ['\\', 'n']
  else if c = '\r' then ['\\', 'r']
  else if c = '\t' then ['\\', 't']
  else [c]

/-- Rust `Debug` escaping of a string body. -/
def escapeDebug (s : List Char) : List Char :=
  s.flatMap escapeDebugChar

/-- The `{:?}` rendering of the `Option<&str>` in the parser's header error. -/
def formatDebugOpt : Option (List Char) → List Char
  | none => "None".toList
  | some s => "Some(\"".toList ++ escapeDebug s ++ "\")".toList

/-- The expected PEM header line, newline included. -/
def headerChars : List Char := "-----BEGIN PUBLIC KEY-----\n".toList

/-- The message `protocol_err!` builds when the header check fails. -/
def formatErrChars (key : List Char) : List Char :=
  "unexpected format for RSA Public Key from MySQL (expected PKCS#8); first line: ".toList
    ++ formatDebugOpt (splitnFirst 1 '\n' key)

/-- `parse`: header check, body extraction, base64 decode, then fixed-offset
extraction of the modulus (last 257 bytes before the 5 trailer bytes) and the
exponent (last 3 bytes). -/
def parse (decode64 : List Char → Option (List Nat)) (key : List Char) :
    Option (Except String PublicKey) :=
  if ¬ headerChars.isPrefixOf key then
    some (Except.error (String.mk (formatErrChars key)))
  else
    let key_with_trailer := trimStartMatches key headerChars
    let trailer_pos := (key_with_trailer.findIdx? (fun c => c = '-')).getD 0
    let inner_key := (key_with_trailer.take trailer_pos).filter (fun c => c ≠ '\n')
    match decode64 inner_key with
    | none => some (Except.error
        "unexpected error decoding what should be base64-encoded data")
    | some inner =>
      let len := inner.length
      match checkedSub len 257 with
      | none => none
      | some t1 =>
        match checkedSub t1 5 with
        | none => none
        | some nStart =>
          match checkedSub len 5 with
          | none => none
          | some nEnd =>
            match rustSlice inner nStart nEnd with
            | none => none
            | some n_bytes =>
              match checkedSub len 3 with
              | none => none
              | some eStart =>
                match rustSlice inner eStart len with
                | none => none
                | some e_bytes =>
                  some (Except.ok ⟨fromBytesBE n_bytes, fromBytesBE e_bytes⟩)

/-- `encrypt`: the public entry point.  `std::str::from_utf8` is the external
primitive `decodeUtf8`; on failure the fixed message below is returned and
the decoder's own diagnostic is dropped.  On success it parses the key and
delegates to `oaep_encrypt` (whose error, if any, propagates unchanged). -/
def encrypt (decodeUtf8 : List Nat → Option (List Char))
    (decode64 : List Char → Option (List Nat))
    (hash : List Nat → List Nat) (h_size : Nat) (seedBytes : List Nat)
    (key : List Nat) (message : List Nat) : Option (Except String (List Nat)) :=
  match decodeUtf8 key with
  | none => some (Except.error "unexpected error decoding what should be UTF-8")
  | some keyChars =>
    match parse decode64 keyChars with
    | none => none
    | some (Except.error e) => some (Except.error e)
    | some (Except.ok pub_key) =>
      some (oaep_encrypt hash h_size seedBytes pub_key message)

/-- Whether `needle` occurs as a contiguous substring of `hay`. -/
def containsSub : List Char → List Char → Bool
  | needle, [] => needle.isEmpty
  | needle, c :: rest => needle.isPrefixOf (c :: rest) || containsSub needle rest

/-! ### SHA-1
The `sha1::Sha1` digest the tests instantiate `D` with, written out over
`Nat` words reduced modulo `2 ^ 32` (FIPS 180-4). -/

/-- Left rotation of a 32-bit word (inputs below `2 ^ 32`). -/
def rotl32 (s x : Nat) : Nat :=
  ((x <<< s) ||| (x >>> (32 - s))) % 4294967296

/-- Big-endian serialization of `x` in exactly `w` bytes. -/
def bytesBEFixed : Nat → Nat → List Nat
  | 0, _ => []
  | w + 1, x => bytesBEFixed w (x / 256) ++ [x % 256]

/-- SHA-1 padding: append `0x80`, zero bytes up to 56 mod 64, then the
64-bit big-endian bit length. -/
def sha1Pad (msg : List Nat) : List Nat :=
  let len := msg.length
  let zeros := (64 + 55 - len % 64) % 64
  msg ++ 128 :: List.replicate zeros 0 ++ bytesBEFixed 8 (8 * len)

/-- Group bytes into big-endian 32-bit words. -/
def bytesToWords : List Nat → List Nat
  | b0 :: b1 :: b2 :: b3 :: rest =>
    (((b0 * 256 + b1) * 256 + b2) * 256 + b3) :: bytesToWords rest
  | _ => []

/-- Extend a 16-word block towards the 80-word SHA-1 message schedule,
appending one word per unit of fuel. -/
def sha1Expand : List Nat → Nat → List Nat
  | w, 0 => w
  | w, fuel + 1 =>
    let i := w.length
    let nw := rotl32 1 ((w.getD (i - 3) 0) ^^^ (w.getD (i - 8) 0) ^^^
      (w.getD (i - 14) 0) ^^^ (w.getD (i - 16) 0))
    sha1Expand (w ++ [nw]) fuel

/-- State tuple `(a, b, c, d, e)` of the SHA-1 compression function. -/
abbrev Sha1State := Nat × Nat × Nat × Nat × Nat

/-- The 80 SHA-1 rounds, the round index `i` counting from 0. -/
def sha1Rounds : Nat → List Nat → Sha1State → Sha1State
  | _, [], st => st
  | i, w :: ws, (a, b, c, d, e) =>
    let f :=
      if i < 20 then (b &&& c) ||| ((b ^^^ 4294967295) &&& d)
      else if i < 40 then b ^^^ c ^^^ d
      else if i < 60 then (b &&& c) ||| (b &&& d) ||| (c &&& d)
      else b ^^^ c ^^^ d
    let kconst :=
      if i < 20 then 1518500249
      else if i < 40 then 1859775393
      else if i < 60 then 2400959708
      else 3395469782
    let temp := (rotl32 5 a + f + e + kconst + w) % 4294967296
    sha1Rounds (i + 1) ws (temp, a, rotl32 30 b, c, d)

/-- Fold the compression function over the 64-byte chunks (16-word groups). -/
def sha1Chunks : List Nat → Sha1State → Sha1State
  | w0 :: w1 :: w2 :: w3 :: w4 :: w5 :: w6 :: w7 ::
      w8 :: w9 :: w10 :: w11 :: w12 :: w13 :: w14 :: w15 :: rest,
      (h0, h1, h2, h3, h4) =>
    let sched := sha1Expand
      [w0, w1, w2, w3, w4, w5, w6, w7, w8, w9, w10, w11, w12, w13, w14, w15] 64
    let st := sha1Rounds 0 sched (h0, h1, h2, h3, h4)
    sha1Chunks rest ((h0 + st.1) % 4294967296, (h1 + st.2.1) % 4294967296,
      (h2 + st.2.2.1) % 4294967296, (h3 + st.2.2.2.1) % 4294967296,
      (h4 + st.2.2.2.2) % 4294967296)
  | _, st => st

/-- SHA-1 of a byte sequence: the digest the tests select for `D`. -/
def sha1 (msg : List Nat) : List Nat :=
  let st := sha1Chunks (bytesToWords (sha1Pad msg))
    (1732584193, 4023233417, 2562383102, 271733878, 3285377520)
  bytesBEFixed 4 st.1 ++ bytesBEFixed 4 st.2.1 ++ bytesBEFixed 4 st.2.2.1 ++
    bytesBEFixed 4 st.2.2.2.1 ++ bytesBEFixed 4 st.2.2.2.2

/-! ### Concrete data from the source tests -/

/-- Modulus bytes of the 1024-bit RFC 8017 OAEP test key. -/
def oaepTestModulusBytes : List Nat := [
  187, 248, 47, 9, 6, 130, 206, 156, 35, 56, 172, 43, 157, 168,
  113, 247, 54, 141, 7, 238, 212, 16, 67, 164, 64, 214, 182, 240,
  116, 84, 245, 31, 184, 223, 186, 175, 3, 92, 2, 171, 97, 234,
  72, 206, 235, 111, 205, 72, 118, 237, 82, 13, 96, 225, 236, 70,
  25, 113, 157, 138, 91, 139, 128, 127, 175, 184, 224, 163, 223, 199,
  55, 114, 62, 230, 180, 183, 217, 58, 37, 132, 238, 106, 100, 157,
  6, 9, 83, 116, 136, 52, 178, 69, 69, 152, 57, 78, 224, 170,
  177, 45, 123, 97, 165, 31, 82, 122, 154, 65, 246, 193, 104, 127,
  226, 83, 114, 152, 202, 42, 143, 89, 70, 248, 229, 253, 9, 29,
  189, 203]

/-- The plaintext message of the OAEP test vector. -/
def oaepTestMessage : List Nat := [
  212, 54, 233, 149, 105, 253, 50, 167, 200, 160, 91, 188, 144, 211,
  44, 73]

/-- The 20 seed bytes the deterministic `ReadRng` supplies. -/
def oaepTestSeed : List Nat := [
  170, 253, 18, 246, 89, 202, 230, 52, 137, 180, 121, 229, 7, 109,
  222, 194, 240, 108, 181, 143]

/-- The expected ciphertext of the OAEP test vector. -/
def oaepTestExpectedCipher : List Nat := [
  18, 83, 224, 77, 192, 165, 57, 123, 180, 74, 122, 184, 126, 155,
  242, 160, 57, 163, 61, 30, 153, 111, 200, 42, 148, 204, 211, 0,
  116, 201, 93, 247, 99, 114, 32, 23, 6, 158, 82, 104, 218, 93,
  28, 11, 79, 135, 44, 246, 83, 193, 29, 248, 35, 20, 166, 121,
  104, 223, 234, 226, 141, 239, 4, 187, 109, 132, 177, 195, 29, 101,
  74, 25, 112, 229, 120, 59, 214, 235, 150, 160, 36, 194, 202, 47,
  74, 144, 254, 159, 46, 245, 201, 193, 64, 229, 187, 72, 218, 149,
  54, 173, 135, 0, 200, 79, 201, 19, 10, 222, 167, 78, 85, 141,
  81, 167, 77, 223, 133, 216, 181, 13, 233, 104, 56, 214, 6, 62,
  9, 85]

/-- DER body of the 2048-bit test envelope (what `base64::decode` returns). -/
def pemDerBytes : List Nat := [
  48, 130, 1, 34, 48, 13, 6, 9, 42, 134, 72, 134, 247, 13,
  1, 1, 1, 5, 0, 3, 130, 1, 15, 0, 48, 130, 1, 10,
  2, 130, 1, 1, 0, 191, 209, 62, 151, 74, 5, 34, 129, 167,
  102, 107, 186, 109, 216, 165, 35, 117, 138, 239, 216, 174, 131, 248,
  110, 146, 62, 80, 173, 100, 107, 37, 85, 66, 28, 191, 43, 71,
  19, 108, 64, 102, 15, 189, 7, 215, 130, 161, 39, 37, 109, 17,
  171, 45, 129, 5, 230, 205, 174, 116, 140, 118, 233, 242, 9, 172,
  243, 212, 163, 53, 135, 158, 225, 72, 141, 113, 28, 104, 96, 254,
  143, 54, 82, 205, 99, 245, 245, 46, 112, 170, 52, 62, 221, 239,
  131, 188, 99, 85, 87, 13, 210, 61, 91, 194, 191, 122, 128, 70,
  237, 232, 30, 16, 183, 135, 138, 100, 24, 109, 149, 237, 91, 130,
  128, 92, 168, 80, 97, 25, 245, 53, 237, 201, 222, 117, 44, 204,
  80, 43, 173, 51, 233, 23, 79, 60, 206, 78, 153, 74, 162, 165,
  222, 38, 145, 25, 13, 53, 252, 0, 255, 69, 67, 210, 100, 160,
  13, 182, 201, 57, 252, 31, 97, 145, 56, 128, 31, 126, 109, 84,
  65, 46, 195, 93, 120, 200, 228, 233, 243, 4, 147, 108, 239, 106,
  13, 73, 226, 188, 139, 189, 177, 46, 74, 18, 117, 245, 112, 222,
  240, 174, 139, 233, 169, 183, 130, 201, 128, 6, 75, 191, 55, 54,
  59, 137, 203, 206, 238, 1, 150, 54, 254, 50, 183, 33, 223, 129,
  210, 91, 44, 78, 125, 108, 237, 214, 255, 111, 164, 151, 196, 85,
  13, 191, 85, 150, 136, 158, 14, 148, 81, 2, 3, 1, 0, 1]

/-- The 256 modulus bytes the test `it_parses` expects. -/
def pemModulusBytes : List Nat := [
  191, 209, 62, 151, 74, 5, 34, 129, 167, 102, 107, 186, 109, 216,
  165, 35, 117, 138, 239, 216, 174, 131, 248, 110, 146, 62, 80, 173,
  100, 107, 37, 85, 66, 28, 191, 43, 71, 19, 108, 64, 102, 15,
  189, 7, 215, 130, 161, 39, 37, 109, 17, 171, 45, 129, 5, 230,
  205, 174, 116, 140, 118, 233, 242, 9, 172, 243, 212, 163, 53, 135,
  158, 225, 72, 141, 113, 28, 104, 96, 254, 143, 54, 82, 205, 99,
  245, 245, 46, 112, 170, 52, 62, 221, 239, 131, 188, 99, 85, 87,
  13, 210, 61, 91, 194, 191, 122, 128, 70, 237, 232, 30, 16, 183,
  135, 138, 100, 24, 109, 149, 237, 91, 130, 128, 92, 168, 80, 97,
  25, 245, 53, 237, 201, 222, 117, 44, 204, 80, 43, 173, 51, 233,
  23, 79, 60, 206, 78, 153, 74, 162, 165, 222, 38, 145, 25, 13,
  53, 252, 0, 255, 69, 67, 210, 100, 160, 13, 182, 201, 57, 252,
  31, 97, 145, 56, 128, 31, 126, 109, 84, 65, 46, 195, 93, 120,
  200, 228, 233, 243, 4, 147, 108, 239, 106, 13, 73, 226, 188, 139,
  189, 177, 46, 74, 18, 117, 245, 112, 222, 240, 174, 139, 233, 169,
  183, 130, 201, 128, 6, 75, 191, 55, 54, 59, 137, 203, 206, 238,
  1, 150, 54, 254, 50, 183, 33, 223, 129, 210, 91, 44, 78, 125,
  108, 237, 214, 255, 111, 164, 151, 196, 85, 13, 191, 85, 150, 136,
  158, 14, 148, 81]

/-- The base64 body of the test envelope, newlines already stripped. -/
def pemBodyChars : List Char :=
  "MIIBIjANBgkqhkiG9w0BAQEFAAOCAQ8AMIIBCgKCAQEAv9E+l0oFIoGnZmu6bdilI3WK79iug/hukj5QrWRrJVVCHL8rRxNs".toList ++
  "QGYPvQfXgqEnJW0Rqy2BBebNrnSMdunyCazz1KM1h57hSI1xHGhg/o82Us1j9fUucKo0Pt3vg7xjVVcN0j1bwr96gEbt6B4Q".toList ++
  "t4eKZBhtle1bgoBcqFBhGfU17cnedSzMUCutM+kXTzzOTplKoqXeJpEZDTX8AP9FQ9JkoA22yTn8H2GROIAffm1UQS7DXXjI".toList ++
  "5OnzBJNs72oNSeK8i72xLkoSdfVw3vCui+mpt4LJgAZLvzc2O4nLzu4Bljb+Mrch34HSWyxOfWzt1v9vpJfEVQ2/VZaIng6UUQIDAQAB".toList

/-- The full PEM test envelope `INPUT` from the source tests. -/
def pemInput : List Char :=
  "-----BEGIN PUBLIC KEY-----\n".toList ++
  "MIIBIjANBgkqhkiG9w0BAQEFAAOCAQ8AMIIBCgKCAQEAv9E+l0oFIoGnZmu6bdil\n".toList ++
  "I3WK79iug/hukj5QrWRrJVVCHL8rRxNsQGYPvQfXgqEnJW0Rqy2BBebNrnSMduny\n".toList ++
  "Cazz1KM1h57hSI1xHGhg/o82Us1j9fUucKo0Pt3vg7xjVVcN0j1bwr96gEbt6B4Q\n".toList ++
  "t4eKZBhtle1bgoBcqFBhGfU17cnedSzMUCutM+kXTzzOTplKoqXeJpEZDTX8AP9F\n".toList ++
  "Q9JkoA22yTn8H2GROIAffm1UQS7DXXjI5OnzBJNs72oNSeK8i72xLkoSdfVw3vCu\n".toList ++
  "i+mpt4LJgAZLvzc2O4nLzu4Bljb+Mrch34HSWyxOfWzt1v9vpJfEVQ2/VZaIng6U\n".toList ++
  "UQIDAQAB\n".toList ++
  "-----END PUBLIC KEY-----\n".toList


/-- The 1024-bit public key of the OAEP test vector (`e = 0x11`). -/
def oaepTestKey : PublicKey := ⟨fromBytesBE oaepTestModulusBytes, 17⟩

/-- The external base64 primitive, pinned on the test envelope's body. -/
def pemDecode64 : List Char → Option (List Nat) :=
  fun s => if s = pemBodyChars then some pemDerBytes else none

/-- A base64 primitive that decodes the empty body to the empty byte string
(exactly what `base64::decode("")` returns). -/
def emptyDecode64 : List Char → Option (List Nat) :=
  fun s => if s = [] then some [] else none

/-! ### Helper lemmas -/

theorem mgf1Aux_length (hash : List Nat → List Nat) (seed : List Nat) :
    ∀ (fuel : Nat) (counter rem : List Nat),
      (mgf1Aux hash seed fuel counter rem).length = rem.length := by
  intro fuel
  induction fuel with
  | zero => intro counter rem; rfl
  | succ n ih =>
    intro counter rem
    cases rem with
    | nil => rfl
    | cons r rs =>
      simp only [mgf1Aux, List.length_append, List.length_zipWith, ih,
        List.length_drop, List.length_cons]
      omega

theorem oeap_mgf1_xor_length (out : List Nat) (hash : List Nat → List Nat)
    (seed : List Nat) : (oeap_mgf1_xor out hash seed).length = out.length :=
  mgf1Aux_length hash seed out.length [0, 0, 0, 0] out

theorem mgf1Aux_nil (hash : List Nat → List Nat) (seed : List Nat)
    (fuel : Nat) (counter : List Nat) :
    mgf1Aux hash seed fuel counter [] = [] := by
  cases fuel <;> rfl

/-- XOR-ing a zipped XOR mask back out restores the masked region, and the
mask bytes left over by a short first argument act on the tail. -/
theorem zipWith_xor_restore : ∀ (a b r : List Nat),
    List.zipWith (fun x y => x ^^^ y)
        (List.zipWith (fun x y => x ^^^ y) a b ++ r) b =
      a.take b.length ++
        List.zipWith (fun x y => x ^^^ y) r (b.drop a.length) := by
  intro a
  induction a with
  | nil => intro b r; simp
  | cons x xs ih =>
    intro b r
    cases b with
    | nil => simp
    | cons y ys =>
      simp only [List.zipWith, List.cons_append, List.take, List.drop,
        List.length_cons, List.append_eq, ih, Nat.xor_cancel_right]

theorem mgf1Aux_invol (hash : List Nat → List Nat) (seed : List Nat)
    (hpos : ∀ l, hash l ≠ []) :
    ∀ (fuel : Nat) (counter rem : List Nat), rem.length ≤ fuel →
      mgf1Aux hash seed fuel counter (mgf1Aux hash seed fuel counter rem) = rem := by
  intro fuel
  induction fuel with
  | zero =>
    intro counter rem h
    have hnil : rem = [] := List.eq_nil_of_length_eq_zero (Nat.le_zero.mp h)
    subst hnil; rfl
  | succ n ih =>
    intro counter rem hlen
    cases rem with
    | nil => rfl
    | cons r rs =>
      rcases hdd : hash (seed ++ counter) with _ | ⟨y, ys⟩
      · exact absurd hdd (hpos _)
      · have hrs : rs.length ≤ n := by
          simpa using hlen
        simp only [mgf1Aux, hdd, List.zipWith, List.cons_append,
          List.length_cons, List.drop_succ_cons, Nat.xor_cancel_right,
          List.cons.injEq, true_and]
        rw [zipWith_xor_restore]
        rcases le_or_lt ys.length rs.length with hle | hlt
        · have hz : (List.zipWith (fun x y => x ^^^ y) rs ys).length = ys.length := by
            simp only [List.length_zipWith]; omega
          rw [List.drop_eq_nil_of_le hle, List.drop_left' hz]
          rw [ih _ _ (by simp only [List.length_drop]; omega)]
          simp [List.take_append_drop]
        · have hdrop : rs.drop ys.length = [] := List.drop_eq_nil_of_le (by omega)
          rw [hdrop, mgf1Aux_nil, List.append_nil]
          have hz : (List.zipWith (fun x y => x ^^^ y) rs ys).length = rs.length := by
            simp only [List.length_zipWith]; omega
          have hdropz : (List.zipWith (fun x y => x ^^^ y) rs ys).drop ys.length = [] :=
            List.drop_eq_nil_of_le (by omega)
          rw [hdropz, mgf1Aux_nil, List.append_nil]
          rw [List.take_of_length_le (by omega)]
          simp


theorem bitLenAux_lt (fuel : Nat) : ∀ n : Nat, n ≤ fuel → n < 2 ^ bitLenAux fuel n := by
  induction fuel with
  | zero =>
    intro n h
    simp only [bitLenAux]
    omega
  | succ m ih =>
    intro n h
    by_cases hn : n = 0
    · subst hn; simp [bitLenAux]
    · have h2 : n / 2 ≤ m := by omega
      have hr := ih (n / 2) h2
      simp only [bitLenAux, hn, if_false, pow_succ]
      omega

/-- `bits` over-approximates: every integer is below `2 ^ bits`. -/
theorem lt_two_pow_bits (n : Nat) : n < 2 ^ bits n :=
  bitLenAux_lt n n (Nat.le_refl n)

theorem natToBytesBEAux_length_le (fuel : Nat) :
    ∀ n L : Nat, n ≤ fuel → n < 256 ^ L → (natToBytesBEAux fuel n).length ≤ L := by
  induction fuel with
  | zero =>
    intro n L _ _
    simp [natToBytesBEAux]
  | succ m ih =>
    intro n L hle hlt
    by_cases hn : n = 0
    · simp [natToBytesBEAux, hn]
    · have hL : L ≠ 0 := by
        intro h0
        rw [h0, pow_zero] at hlt
        omega
      obtain ⟨L', rfl⟩ : ∃ L', L = L' + 1 := ⟨L - 1, by omega⟩
      have h1 : n / 256 ≤ m := by omega
      have h2 : n / 256 < 256 ^ L' := by
        rw [pow_succ] at hlt
        omega
      have := ih (n / 256) L' h1 h2
      simp only [natToBytesBEAux, hn, if_false, List.length_append,
        List.length_cons, List.length_nil]
      omega

/-- Length bound for the minimal big-endian serialization. -/
theorem toBytesBE_length_le (n L : Nat) (hL : 1 ≤ L) (h : n < 256 ^ L) :
    (toBytesBE n).length ≤ L := by
  by_cases hn : n = 0
  · simp [toBytesBE, hn]; omega
  · simp only [toBytesBE, hn, if_false]
    exact natToBytesBEAux_length_le n n L (Nat.le_refl n) h

theorem internals_copy_with_left_pad_length (dest src : List Nat)
    (h : src.length ≤ dest.length) :
    (internals_copy_with_left_pad dest src).length = dest.length := by
  simp only [internals_copy_with_left_pad, List.length_append,
    List.length_replicate]
  omega

theorem overwrite_length (dest src : List Nat) (off : Nat)
    (h : off + src.length ≤ dest.length) :
    (overwrite dest off src).length = dest.length := by
  simp only [overwrite, List.length_append, List.length_take, List.length_drop]
  omega

/-- Setting inside a replicate splits it around the written position. -/
theorem set_replicate_split (a b : Nat) :
    ∀ (i L : Nat), i < L →
      (List.replicate L a).set i b =
        List.replicate i a ++ b :: List.replicate (L - i - 1) a := by
  intro i
  induction i with
  | zero =>
    intro L hL
    obtain ⟨L', rfl⟩ : ∃ L', L = L' + 1 := ⟨L - 1, by omega⟩
    simp [List.replicate_succ]
  | succ j ih =>
    intro L hL
    obtain ⟨L', rfl⟩ : ∃ L', L = L' + 1 := ⟨L - 1, by omega⟩
    have hj : j < L' := by omega
    have hcount : L' + 1 - (j + 1) - 1 = L' - j - 1 := by omega
    simp only [List.replicate_succ, List.set_cons_succ, ih L' hj,
      List.cons_append, hcount]

/-- Refinement of the imperative OAEP block construction: under the digest
contract and the capacity bound, `oaep_encrypt` produces exactly the
RFC-shaped block `0x00 | seed | DB` with `DB = pHash | PS | 0x01 | M`,
DB masked first by MGF1(seed) and the seed then masked by MGF1(maskedDB),
exponentiated and left-padded. -/
theorem oaep_encrypt_spec (hash : List Nat → List Nat) (h_size : Nat)
    (seedBytes : List Nat) (pub_key : PublicKey) (msg : List Nat)
    (hhash : (hash []).length = h_size)
    (hk : 2 * h_size + 2 ≤ (bits pub_key.n + 7) / 8)
    (hmsg : msg.length ≤ (bits pub_key.n + 7) / 8 - 2 * h_size - 2) :
    oaep_encrypt hash h_size seedBytes pub_key msg =
      (let k := (bits pub_key.n + 7) / 8
       let db := hash [] ++
         List.replicate (k - 2 * h_size - 2 - msg.length) 0 ++ 1 :: msg
       let maskedDB := oeap_mgf1_xor db hash seedBytes
       let maskedSeed := oeap_mgf1_xor seedBytes hash maskedDB
       let em := 0 :: maskedSeed ++ maskedDB
       Except.ok (internals_copy_with_left_pad em
         (toBytesBE (internals_encrypt pub_key (fromBytesBE em))))) := by
  simp only [oaep_encrypt]
  rw [if_neg (by omega)]
  have hfirst : (List.replicate ((bits pub_key.n + 7) / 8) 0).take 1 = [0] := by
    rw [List.take_replicate]
    have h1 : min 1 ((bits pub_key.n + 7) / 8) = 1 := by omega
    rw [h1]
    rfl
  have hdb0 : ((List.replicate ((bits pub_key.n + 7) / 8) 0).drop 1).drop h_size =
      List.replicate ((bits pub_key.n + 7) / 8 - 1 - h_size) 0 := by
    rw [List.drop_replicate, List.drop_replicate]
  have hdb1 : overwrite (List.replicate ((bits pub_key.n + 7) / 8 - 1 - h_size) 0) 0 (hash []) =
      hash [] ++ List.replicate ((bits pub_key.n + 7) / 8 - 1 - h_size - h_size) 0 := by
    simp only [overwrite, List.take_zero, Nat.zero_add, List.nil_append,
      List.drop_replicate, hhash]
  have hsplit : (List.replicate ((bits pub_key.n + 7) / 8 - 1 - h_size - h_size) 0).set
        ((bits pub_key.n + 7) / 8 - 2 * h_size - 2 - msg.length) 1 =
      List.replicate ((bits pub_key.n + 7) / 8 - 2 * h_size - 2 - msg.length) 0 ++
        1 :: List.replicate msg.length 0 := by
    have hcnt : (bits pub_key.n + 7) / 8 - 1 - h_size - h_size -
        ((bits pub_key.n + 7) / 8 - 2 * h_size - 2 - msg.length) - 1 = msg.length := by
      omega
    rw [set_replicate_split 0 1 _ _ (by omega), hcnt]
  have hdb2 : ((hash [] ++ List.replicate ((bits pub_key.n + 7) / 8 - 1 - h_size - h_size) 0).set
        ((bits pub_key.n + 7) / 8 - h_size - 1 - msg.length - 1) 1) =
      hash [] ++ (List.replicate ((bits pub_key.n + 7) / 8 - 2 * h_size - 2 - msg.length) 0 ++
        1 :: List.replicate msg.length 0) := by
    rw [List.set_append, if_neg (by rw [hhash]; omega), hhash]
    have hidx : (bits pub_key.n + 7) / 8 - h_size - 1 - msg.length - 1 - h_size =
        (bits pub_key.n + 7) / 8 - 2 * h_size - 2 - msg.length := by omega
    rw [hidx, hsplit]
  have hgroup : hash [] ++ (List.replicate ((bits pub_key.n + 7) / 8 - 2 * h_size - 2 - msg.length) 0 ++
        1 :: List.replicate msg.length 0) =
      (hash [] ++ List.replicate ((bits pub_key.n + 7) / 8 - 2 * h_size - 2 - msg.length) 0 ++ [1]) ++
        List.replicate msg.length 0 := by
    simp [List.append_assoc]
  have hAlen : (hash [] ++ List.replicate ((bits pub_key.n + 7) / 8 - 2 * h_size - 2 - msg.length) 0 ++ [1]).length =
      (bits pub_key.n + 7) / 8 - h_size - 1 - msg.length := by
    simp [hhash]
    omega
  have hdb3 : overwrite ((hash [] ++ List.replicate ((bits pub_key.n + 7) / 8 - 2 * h_size - 2 - msg.length) 0 ++ [1]) ++
        List.replicate msg.length 0) ((bits pub_key.n + 7) / 8 - h_size - 1 - msg.length) msg =
      hash [] ++ List.replicate ((bits pub_key.n + 7) / 8 - 2 * h_size - 2 - msg.length) 0 ++ 1 :: msg := by
    simp only [overwrite]
    rw [List.take_left' hAlen]
    have hlen2 : ((hash [] ++ List.replicate ((bits pub_key.n + 7) / 8 - 2 * h_size - 2 - msg.length) 0 ++ [1]) ++
        List.replicate msg.length 0).length ≤ (bits pub_key.n + 7) / 8 - h_size - 1 - msg.length + msg.length := by
      simp [hhash]
      omega
    rw [List.drop_eq_nil_of_le hlen2, List.append_nil]
    simp [List.append_assoc]
  rw [hfirst, hdb0, hdb1, hdb2, hgroup, hdb3]
  simp only [List.singleton_append]

/-! ### Claim theorems -/

/-- C1: with the deterministic random source supplying the RFC 8017-style
OAEP test seed, the specific 1024-bit test key and test message,
`oaep_encrypt` under the 160-bit digest returns a ciphertext equal
byte-for-byte to the known expected ciphertext. -/
theorem oaep_encrypt_sha1_known_vector :
    oaep_encrypt sha1 20 oaepTestSeed oaepTestKey oaepTestMessage =
      Except.ok oaepTestExpectedCipher := by
  rfl

/-- C2: for a key of byte-width `k` and digest size `h` with `k ≥ 2h + 2`, a
message of length `k - 2h - 2` passes the capacity check (the call succeeds),
while any message of length at least `k - 2h - 1` fails with the
"password too long" error (in the source, before the `k`-byte block is
allocated: the check precedes the allocation). -/
theorem oaep_encrypt_length_bound (hash : List Nat → List Nat) (h_size : Nat)
    (seedBytes : List Nat) (pub_key : PublicKey) (msgOk msgBig : List Nat)
    (hk : 2 * h_size + 2 ≤ (bits pub_key.n + 7) / 8)
    (hok : msgOk.length = (bits pub_key.n + 7) / 8 - 2 * h_size - 2)
    (hbig : (bits pub_key.n + 7) / 8 - 2 * h_size - 1 ≤ msgBig.length) :
    (oaep_encrypt hash h_size seedBytes pub_key msgOk).isOk = true ∧
      oaep_encrypt hash h_size seedBytes pub_key msgBig =
        Except.error "mysql: password too long" := by
  constructor
  · simp only [oaep_encrypt]
    rw [if_neg (by omega)]
    rfl
  · simp only [oaep_encrypt]
    rw [if_pos (by omega)]

/-- Witness for C2 at a 40-bit key (`k = 5`) with a 1-byte digest. -/
theorem oaep_encrypt_length_bound_witness :
    (oaep_encrypt (fun _ => [0]) 1 [0] ⟨2 ^ 39, 3⟩ [7]).isOk = true ∧
      oaep_encrypt (fun _ => [0]) 1 [0] ⟨2 ^ 39, 3⟩ [1, 2] =
        Except.error "mysql: password too long" :=
  oaep_encrypt_length_bound (fun _ => [0]) 1 [0] ⟨2 ^ 39, 3⟩ [7] [1, 2]
    (by decide) (by decide) (by decide)

/-- C3: every successful `oaep_encrypt` call returns exactly
`k = ceil(bits(n) / 8)` bytes: the big-endian serialization of the
modular-exponentiation result is left-padded with zeros to width `k`,
however many leading zero bytes the raw serialization drops. -/
theorem oaep_encrypt_output_width (hash : List Nat → List Nat) (h_size : Nat)
    (seedBytes : List Nat) (pub_key : PublicKey) (msg out : List Nat)
    (hhash : (hash []).length = h_size)
    (hseed : seedBytes.length = h_size)
    (hk : 2 * h_size + 2 ≤ (bits pub_key.n + 7) / 8)
    (hok : oaep_encrypt hash h_size seedBytes pub_key msg = Except.ok out) :
    out.length = (bits pub_key.n + 7) / 8 := by
  have hmsg : msg.length ≤ (bits pub_key.n + 7) / 8 - 2 * h_size - 2 := by
    by_contra hgt
    push_neg at hgt
    simp only [oaep_encrypt] at hok
    rw [if_pos (by omega)] at hok
    exact Except.noConfusion hok
  rw [oaep_encrypt_spec hash h_size seedBytes pub_key msg hhash hk hmsg] at hok
  simp only [] at hok
  set k := (bits pub_key.n + 7) / 8 with hk_def
  set db := hash [] ++ List.replicate (k - 2 * h_size - 2 - msg.length) 0 ++ 1 :: msg with hdb_def
  set maskedDB := oeap_mgf1_xor db hash seedBytes with hmdb_def
  set maskedSeed := oeap_mgf1_xor seedBytes hash maskedDB with hms_def
  set em := 0 :: maskedSeed ++ maskedDB with hem_def
  rw [Except.ok.injEq] at hok
  subst hok
  have hnpos : 0 < pub_key.n := by
    rcases Nat.eq_zero_or_pos pub_key.n with h0 | h
    · exfalso
      rw [hk_def] at hk
      rw [h0] at hk
      have hb : bits 0 = 0 := rfl
      rw [hb] at hk
      omega
    · exact h
  have hmdb_len : maskedDB.length = k - h_size - 1 := by
    rw [hmdb_def, oeap_mgf1_xor_length, hdb_def]
    simp only [List.length_append, List.length_replicate, List.length_cons, hhash]
    omega
  have hms_len : maskedSeed.length = h_size := by
    rw [hms_def, oeap_mgf1_xor_length, hseed]
  have hem_len : em.length = k := by
    rw [hem_def]
    simp only [List.length_cons, List.length_append, hmdb_len, hms_len]
    omega
  have hc : (toBytesBE (internals_encrypt pub_key (fromBytesBE em))).length ≤ k := by
    apply toBytesBE_length_le _ _ (by omega)
    have h1 : internals_encrypt pub_key (fromBytesBE em) < pub_key.n :=
      Nat.mod_lt _ hnpos
    have h2 : pub_key.n < 2 ^ bits pub_key.n := lt_two_pow_bits _
    have h3 : 2 ^ bits pub_key.n ≤ 2 ^ (8 * k) :=
      Nat.pow_le_pow_right (by norm_num) (by rw [hk_def]; omega)
    have h4 : (256 : Nat) ^ k = 2 ^ (8 * k) := by
      rw [show (256 : Nat) = 2 ^ 8 by norm_num, ← pow_mul]
    omega
  rw [internals_copy_with_left_pad_length _ _ (by rw [hem_len]; exact hc)]
  exact hem_len

/-- Witness for C3 at a 40-bit key: the returned ciphertext has `k = 5`
bytes. -/
theorem oaep_encrypt_output_width_witness :
    ([0, 1, 21, 148, 87] : List Nat).length = (bits (2 ^ 39 : Nat) + 7) / 8 :=
  oaep_encrypt_output_width (fun _ => [0]) 1 [0] ⟨2 ^ 39, 3⟩ [7]
    [0, 1, 21, 148, 87] (by rfl) (by rfl) (by decide) (by rfl)

/-- C4: the `k`-byte block that is raised to `e` mod `n` is built exactly as
`0x00 | seed | DB` with `DB = pHash | zero padding | 0x01 | message`
(the padding width being `db_len - |message| - 1 - h`); DB is XOR-masked
first by MGF1 seeded with the seed, and only afterwards is the seed
XOR-masked by MGF1 seeded with the already-masked DB. -/
theorem oaep_encrypt_em_structure (hash : List Nat → List Nat) (h_size : Nat)
    (seedBytes : List Nat) (pub_key : PublicKey) (msg : List Nat)
    (hhash : (hash []).length = h_size)
    (_hseed : seedBytes.length = h_size)
    (hk : 2 * h_size + 2 ≤ (bits pub_key.n + 7) / 8)
    (hmsg : msg.length ≤ (bits pub_key.n + 7) / 8 - 2 * h_size - 2) :
    oaep_encrypt hash h_size seedBytes pub_key msg =
      (let k := (bits pub_key.n + 7) / 8
       let db := hash [] ++
         List.replicate (k - 2 * h_size - 2 - msg.length) 0 ++ 1 :: msg
       let maskedDB := oeap_mgf1_xor db hash seedBytes
       let maskedSeed := oeap_mgf1_xor seedBytes hash maskedDB
       let em := 0 :: maskedSeed ++ maskedDB
       Except.ok (internals_copy_with_left_pad em
         (toBytesBE (internals_encrypt pub_key (fromBytesBE em))))) :=
  oaep_encrypt_spec hash h_size seedBytes pub_key msg hhash hk hmsg

/-- Witness for C4 at a 40-bit key with a 1-byte digest. -/
theorem oaep_encrypt_em_structure_witness :
    oaep_encrypt (fun _ => [0]) 1 [0] ⟨2 ^ 39, 3⟩ [7] =
      Except.ok [0, 1, 21, 148, 87] :=
  (oaep_encrypt_em_structure (fun _ => [0]) 1 [0] ⟨2 ^ 39, 3⟩ [7]
      (by rfl) (by rfl) (by decide) (by decide)).trans (by rfl)

/-- C5: whenever the header is present and the base64 body decodes to at
least 262 bytes, `parse` returns the key whose modulus is read big-endian
from the 257 bytes at `[len - 262, len - 5)` and whose exponent is read
big-endian from the last 3 bytes. -/
theorem parse_extracts_fixed_offsets (decode64 : List Char → Option (List Nat))
    (key : List Char) (inner : List Nat)
    (hhead : headerChars.isPrefixOf key = true)
    (hdec : decode64 (((trimStartMatches key headerChars).take
        (((trimStartMatches key headerChars).findIdx? (fun c => c = '-')).getD 0)).filter
        (fun c => c ≠ '\n')) = some inner)
    (hlen : 262 ≤ inner.length) :
    parse decode64 key = some (Except.ok
      ⟨fromBytesBE ((inner.drop (inner.length - 262)).take 257),
       fromBytesBE (inner.drop (inner.length - 3))⟩) := by
  simp only [parse, hhead, Bool.true_eq_false, not_true_eq_false, if_false, hdec]
  have h1 : checkedSub inner.length 257 = some (inner.length - 257) := by
    unfold checkedSub
    rw [if_pos (by omega)]
  have h2 : checkedSub (inner.length - 257) 5 = some (inner.length - 257 - 5) := by
    unfold checkedSub
    rw [if_pos (by omega)]
  have h3 : checkedSub inner.length 5 = some (inner.length - 5) := by
    unfold checkedSub
    rw [if_pos (by omega)]
  have h4 : rustSlice inner (inner.length - 257 - 5) (inner.length - 5) =
      some ((inner.drop (inner.length - 262)).take 257) := by
    unfold rustSlice
    rw [if_pos (by constructor <;> omega)]
    have e1 : inner.length - 257 - 5 = inner.length - 262 := by omega
    have e2 : inner.length - 5 - (inner.length - 262) = 257 := by omega
    rw [e1, e2]
  have h5 : checkedSub inner.length 3 = some (inner.length - 3) := by
    unfold checkedSub
    rw [if_pos (by omega)]
  have h6 : rustSlice inner (inner.length - 3) inner.length =
      some (inner.drop (inner.length - 3)) := by
    unfold rustSlice
    rw [if_pos (by constructor <;> omega)]
    have e2 : inner.length - (inner.length - 3) = 3 := by omega
    rw [e2]
    rw [List.take_of_length_le (by simp [List.length_drop]; omega)]
  simp only [h1, h2, h3, h4, h5, h6]

/-- Witness for C5: the known 2048-bit test envelope yields exactly the
expected 256-byte modulus value and the exponent 65537. -/
theorem parse_extracts_fixed_offsets_witness :
    parse pemDecode64 pemInput =
      some (Except.ok ⟨fromBytesBE pemModulusBytes, 65537⟩) :=
  (parse_extracts_fixed_offsets pemDecode64 pemInput pemDerBytes
      (by rfl) (by rfl) (by decide)).trans (by rfl)

/-- C6: an input that begins with the expected header and whose body decodes
to fewer than 262 bytes (here: the header alone, with no '-' after it, so
the body is empty and decodes to 0 bytes) makes the fixed-offset slicing
index out of bounds: `parse` panics (`none`) instead of returning a format
error. -/
theorem parse_short_body_panics :
    parse emptyDecode64 headerChars = none := by
  rfl

/-- C7 (evidence of the divergence): because `splitn(1, '\n')` never splits,
the header-check error message embeds the whole input, Debug-escaped; for an
input whose first line contains a quote, the message does not contain the
first line at all. -/
theorem parse_header_error_whole_input :
    parse (fun _ => none) ("x\"y\nz".toList) =
      some (Except.error
        "unexpected format for RSA Public Key from MySQL (expected PKCS#8); first line: Some(\"x\\\"y\\nz\")") ∧
      containsSub ("x\"y".toList)
        ("unexpected format for RSA Public Key from MySQL (expected PKCS#8); first line: Some(\"x\\\"y\\nz\")".toList)
        = false := by
  exact ⟨by rfl, by decide⟩

/-- C8: `internals_inc_counter` on any 4-byte counter is the big-endian
increment modulo `2 ^ 32` (low byte incremented, carry cascading left on
`0xFF`, the whole counter wrapping to zero after the high byte overflows). -/
theorem internals_inc_counter_be (b0 b1 b2 b3 : Nat)
    (h0 : b0 < 256) (h1 : b1 < 256) (h2 : b2 < 256) (h3 : b3 < 256) :
    internals_inc_counter [b0, b1, b2, b3] =
      bytesBEFixed 4 ((fromBytesBE [b0, b1, b2, b3] + 1) % 2 ^ 32) := by
  simp only [internals_inc_counter, fromBytesBE, bytesBEFixed, List.foldl,
    List.getD, List.get?, List.set]
  split_ifs <;> simp_all <;> omega

/-- Witness for C8: the two wraparound examples from the spec. -/
theorem internals_inc_counter_be_witness :
    internals_inc_counter [255, 255, 255, 255] = [0, 0, 0, 0] ∧
      internals_inc_counter [0, 0, 0, 255] = [0, 0, 1, 0] :=
  ⟨(internals_inc_counter_be 255 255 255 255 (by decide) (by decide)
      (by decide) (by decide)).trans (by decide),
   (internals_inc_counter_be 0 0 0 255 (by decide) (by decide)
      (by decide) (by decide)).trans (by decide)⟩

/-- C9: when the key bytes are not valid UTF-8, `encrypt` fails with the
fixed generic message; the message is a constant independent of the input
bytes and of the decoder's diagnostic. -/
theorem encrypt_invalid_utf8_generic_message
    (decodeUtf8 : List Nat → Option (List Char))
    (decode64 : List Char → Option (List Nat)) (hash : List Nat → List Nat)
    (h_size : Nat) (seedBytes key message : List Nat)
    (hbad : decodeUtf8 key = none) :
    encrypt decodeUtf8 decode64 hash h_size seedBytes key message =
      some (Except.error "unexpected error decoding what should be UTF-8") := by
  simp only [encrypt, hbad]

/-- Witness for C9 on a byte string that is not valid UTF-8. -/
theorem encrypt_invalid_utf8_generic_message_witness :
    encrypt (fun _ => none) (fun _ => none) (fun _ => []) 0 [] [255] [] =
      some (Except.error "unexpected error decoding what should be UTF-8") :=
  encrypt_invalid_utf8_generic_message (fun _ => none) (fun _ => none)
    (fun _ => []) 0 [] [255] [] rfl

/-- C10: the in-place MGF1 XOR masking is an involution: applying
`oeap_mgf1_xor` twice with the same seed and digest restores the buffer,
because the generated mask depends only on the seed, the buffer length and
the digest (which produces a fixed, nonempty output per reset cycle). -/
theorem oeap_mgf1_xor_involutive (out : List Nat) (hash : List Nat → List Nat)
    (seed : List Nat) (hpos : ∀ l, hash l ≠ []) :
    oeap_mgf1_xor (oeap_mgf1_xor out hash seed) hash seed = out := by
  show mgf1Aux hash seed (oeap_mgf1_xor out hash seed).length [0, 0, 0, 0]
      (oeap_mgf1_xor out hash seed) = out
  rw [oeap_mgf1_xor_length]
  exact mgf1Aux_invol hash seed hpos out.length [0, 0, 0, 0] out (Nat.le_refl _)

/-- Witness for C10 on a 3-byte buffer with a 1-byte digest. -/
theorem oeap_mgf1_xor_involutive_witness :
    oeap_mgf1_xor (oeap_mgf1_xor [5, 6, 7] (fun _ => [1]) [9]) (fun _ => [1]) [9]
      = [5, 6, 7] :=
  oeap_mgf1_xor_involutive [5, 6, 7] (fun _ => [1]) [9]
    (fun _ => List.cons_ne_nil 1 [])

end MysqlRsa
